import Mathlib

/-!
Verification of the `aws-mp-utils` changeset module (`aws_mp_utils/changeset.py`).

The development shallowly embeds the module's functions:

* the conflict-id extraction `get_ongoing_change_id_from_error` (the Python
  regex `change sets: (\w{25})` searched with `re.search`, i.e. leftmost match);
* the retry loop `start_mp_change_set`, with the marketplace client modelled
  as a sequence of call outcomes and the loop instrumented to count
  `start_change_set` invocations and `time.sleep` calls;
* the pure change-document builders (`create_restrict_version_change_doc`,
  `create_add_version_change_doc`) together with a model of Python's
  `json.dumps` (default separators) and a parser for the canonical output;
* `get_change_set_status` and the jmespath-based
  `get_image_delivery_option_id` lookup.

Python exceptions are modelled as explicit error results; `AWSMPUtilsException`
instances are identified by the message they carry.
-/

set_option autoImplicit false

namespace AwsMpUtils

/-! ## Conflict-id extraction (`get_ongoing_change_id_from_error`)

The Python source searches the error message with the regular expression
`r'change sets: (\w{25})'` (`re.search`: leftmost occurrence) and returns the
captured group; if there is no match it raises `AWSMPUtilsException`.
`\w` is modelled as the ASCII word characters (letters, digits, underscore). -/

/-- Python regex `\w` word character (ASCII model): letter, digit or underscore. -/
def isWordChar (c : Char) : Bool :=
  c.isAlpha || c.isDigit || c = '_'

/-- The literal part of the pattern `r'change sets: (\w{25})'`. -/
def changeSetsPat : List Char := "change sets: ".data

/-- Match a literal pattern at the head of the input, returning the remainder. -/
def dropPat : List Char → List Char → Option (List Char)
  | [], cs => some cs
  | _ :: _, [] => none
  | p :: ps, c :: cs => if c = p then dropPat ps cs else none

/-- Try to match `change sets: (\w{25})` at the start of `cs`,
returning the captured 25-character group. -/
def matchChangeIdAt (cs : List Char) : Option (List Char) :=
  match dropPat changeSetsPat cs with
  | none => none
  | some rest =>
    let tok := rest.take 25
    if tok.length = 25 ∧ tok.all isWordChar = true then some tok else none

/-- `re.search` for the pattern: try each start position from the left. -/
def searchChangeId : List Char → Option (List Char)
  | [] => none
  | c :: cs =>
    match matchChangeIdAt (c :: cs) with
    | some tok => some tok
    | none => searchChangeId cs

/-- `get_ongoing_change_id_from_error(message)`: return the captured group of
the leftmost match of `change sets: (\w{25})`, or raise `AWSMPUtilsException`
with the source's message. -/
def get_ongoing_change_id_from_error (message : String) : Except String String :=
  match searchChangeId message.data with
  | some tok => Except.ok (String.mk tok)
  | none =>
    Except.error
      ("Unable to extract changeset id from aws err response: " ++ message)

/-- The message contains `change sets: ` immediately followed by 25 word
characters (the "pattern occurs" predicate used by the claims). -/
def hasChangeIdPattern (l : List Char) : Prop :=
  ∃ pre tok rest, l = pre ++ changeSetsPat ++ tok ++ rest ∧
    tok.length = 25 ∧ tok.all isWordChar = true

/-! ## The retry loop (`start_mp_change_set`)

The marketplace client is modelled as a function from the call index to the
outcome of that `start_change_set` invocation: either a response or a
`botocore ClientError` carrying `error.response['Error']['Code']` and the
rendered message `str(error)`.  The loop is instrumented with the number of
`client.start_change_set` invocations and of `time.sleep` calls (the wait
period passed to `sleep` does not influence control flow and is not
modelled).  The Python `while` loop is embedded with an explicit fuel
parameter; the top-level entry point supplies fuel that is provably never
exhausted. -/

/-- A `botocore.exceptions.ClientError`: the error code read from
`error.response['Error']['Code']` and the message `str(error)`. -/
structure ClientError where
  code : String
  msg : String
deriving DecidableEq

/-- Outcome of one `client.start_change_set` call. -/
inductive CallOutcome (α : Type) where
  | success (resp : α)
  | clientError (err : ClientError)
deriving DecidableEq

/-- Observable result of `start_mp_change_set`. -/
inductive MPResult (α : Type) where
  /-- The function returned `response`. -/
  | returned (resp : α)
  /-- A non-conflict `ClientError` was re-raised (`raise` in the except arm). -/
  | raisedUpstream (err : ClientError)
  /-- `AWSMPUtilsException`: timed out waiting for the blocking changeset. -/
  | timeout (ongoing_change_id : String)
  /-- `AWSMPUtilsException`: could not extract the changeset id. -/
  | extractionFailure (msg : String)
  /-- `AWSMPUtilsException('Unable to complete successfully the mp change.')`
  raised after the `while` loop. -/
  | genericFailure
  /-- Model artifact: the fuel ran out (provably unreachable from the
  top-level entry point). -/
  | outOfFuel
deriving DecidableEq

/-- Result of a run of `start_mp_change_set`, with the number of
`client.start_change_set` invocations and of `time.sleep` calls. -/
structure RunResult (α : Type) where
  result : MPResult α
  calls : Nat
  sleeps : Nat
deriving DecidableEq

/-- One execution of the `while retries > 0` loop body of
`start_mp_change_set`, continuing recursively.  `idx` is the index of the
next `client.start_change_set` call. -/
def startLoop {α : Type} (client : Nat → CallOutcome α) :
    Nat → Int → Int → Nat → RunResult α
  | 0, _, _, _ => ⟨MPResult.outOfFuel, 0, 0⟩
  | fuel + 1, retries, max_rechecks, idx =>
    if retries > 0 then
      match client idx with
      | CallOutcome.success resp =>
        -- `return response`
        ⟨MPResult.returned resp, 1, 0⟩
      | CallOutcome.clientError err =>
        if err.code = "ResourceInUseException" then
          -- `conflicting_changeset = True`; `conflicting_error_message = str(error)`
          let conflicting_changeset := true
          if conflicting_changeset then
            -- `time.sleep(conflict_wait_period)`; `max_rechecks -= 1`
            if max_rechecks - 1 ≤ 0 then
              match get_ongoing_change_id_from_error err.msg with
              | Except.ok ongoing_change_id =>
                ⟨MPResult.timeout ongoing_change_id, 1, 1⟩
              | Except.error e => ⟨MPResult.extractionFailure e, 1, 1⟩
            else
              let rest := startLoop client fuel retries (max_rechecks - 1) (idx + 1)
              ⟨rest.result, rest.calls + 1, rest.sleeps + 1⟩
          else
            -- `else: retries -= 1` (unreachable: every path that falls
            -- through the try/except has `conflicting_changeset = True`)
            let rest := startLoop client fuel (retries - 1) max_rechecks (idx + 1)
            ⟨rest.result, rest.calls + 1, rest.sleeps⟩
        else
          -- `raise` (re-raise the same error)
          ⟨MPResult.raisedUpstream err, 1, 0⟩
    else ⟨MPResult.genericFailure, 0, 0⟩

/-- `start_mp_change_set(client, change_set, max_rechecks, conflict_wait_period)`:
`retries = 3`, then the `while retries > 0` loop.  The fuel
`max_rechecks.toNat + 4` strictly exceeds the number of loop iterations any
client can cause (each iteration either finishes or decrements one of the two
counters). -/
def start_mp_change_set {α : Type} (client : Nat → CallOutcome α)
    (max_rechecks : Int) : RunResult α :=
  startLoop client (max_rechecks.toNat + 4) 3 max_rechecks 0

/-- The result `start_mp_change_set` reaches once `max_rechecks` is exhausted
by a conflict whose message is `m`. -/
def conflictExhaustResult (α : Type) (m : String) : MPResult α :=
  match get_ongoing_change_id_from_error m with
  | Except.ok ongoing_change_id => MPResult.timeout ongoing_change_id
  | Except.error e => MPResult.extractionFailure e

/-! ## JSON values and `json.dumps`

The builders serialize a nested `dict` with `json.dumps(details)`.  `Json`
models the values that occur in those documents (strings, non-negative
integers, arrays, objects with insertion-ordered keys — Python 3 dicts
preserve insertion order).  `jsonDumps` reproduces `json.dumps` with its
default separators `', '` and `': '`; of the escape sequences it models the
two that can occur in the library's payloads plus the five short control
escapes (`\uXXXX` escaping of other control and non-ASCII characters is
outside the model). -/

inductive Json where
  | str (s : String)
  | num (n : Nat)
  | arr (elems : List Json)
  | obj (members : List (String × Json))

/-- JSON string escaping of one character, as `json.dumps` does it. -/
def escapeChar (c : Char) : List Char :=
  if c = '"' then ['\\', '"']
  else if c = '\\' then ['\\', '\\']
  else if c = '\n' then ['\\', 'n']
  else if c = '\t' then ['\\', 't']
  else if c = '\r' then ['\\', 'r']
  else if c = '\x08' then ['\\', 'b']
  else if c = '\x0c' then ['\\', 'f']
  else [c]

/-- Serialization of a JSON string literal, quotes included. -/
def dumpString (s : String) : List Char :=
  '"' :: s.data.flatMap escapeChar ++ ['"']

mutual

/-- `json.dumps` (default separators), producing the character list. -/
def dumpJson : Json → List Char
  | Json.str s => dumpString s
  | Json.num n => (Nat.repr n).data
  | Json.arr elems => '[' :: dumpElems elems ++ [']']
  | Json.obj members => '\x7b' :: dumpMembers members ++ ['\x7d']

/-- Array elements joined by `', '`. -/
def dumpElems : List Json → List Char
  | [] => []
  | [j] => dumpJson j
  | j :: rest => dumpJson j ++ ',' :: ' ' :: dumpElems rest

/-- Object members `key: value` joined by `', '`. -/
def dumpMembers : List (String × Json) → List Char
  | [] => []
  | [(k, v)] => dumpString k ++ ':' :: ' ' :: dumpJson v
  | (k, v) :: rest =>
    dumpString k ++ ':' :: ' ' :: dumpJson v ++ ',' :: ' ' :: dumpMembers rest

end

/-- `json.dumps` as a string. -/
def jsonDumps (j : Json) : String :=
  String.mk (dumpJson j)

/-! ## A decoder for the canonical serialization

`jsonParse` parses exactly the output format of `jsonDumps` (the canonical
`json.dumps` layout), so that "the `Details` string JSON-decodes to `v`" can
be stated as `jsonParse details = some v`. -/

/-- Inverse of `escapeChar` on the character following a backslash. -/
def unescapeChar (c : Char) : Option Char :=
  if c = '"' then some '"'
  else if c = '\\' then some '\\'
  else if c = 'n' then some '\n'
  else if c = 't' then some '\t'
  else if c = 'r' then some '\r'
  else if c = 'b' then some '\x08'
  else if c = 'f' then some '\x0c'
  else none

/-- Parse a JSON string body up to the closing quote (the opening quote has
already been consumed), returning the decoded characters and the remainder. -/
def parseStringBody : List Char → Option (List Char × List Char)
  | [] => none
  | c :: rest =>
    if c = '"' then some ([], rest)
    else if c = '\\' then
      match rest with
      | [] => none
      | e :: rest' =>
        match unescapeChar e, parseStringBody rest' with
        | some u, some (s, r) => some (u :: s, r)
        | _, _ => none
    else
      match parseStringBody rest with
      | none => none
      | some (s, r) => some (c :: s, r)

/-- Parse a run of decimal digits. -/
def parseNumber (cs : List Char) : Option (Nat × List Char) :=
  let ds := cs.takeWhile Char.isDigit
  if ds.isEmpty then none
  else
    some (ds.foldl (fun acc c => 10 * acc + (c.toNat - '0'.toNat)) 0,
      cs.dropWhile Char.isDigit)

mutual

/-- Parse one canonical JSON value (fuel-indexed recursive descent). -/
def parseVal : Nat → List Char → Option (Json × List Char)
  | 0, _ => none
  | _ + 1, [] => none
  | n + 1, c :: cs =>
    if c = '"' then
      match parseStringBody cs with
      | none => none
      | some (s, r) => some (Json.str (String.mk s), r)
    else if c = '[' then
      if cs.head? = some ']' then some (Json.arr [], cs.tail)
      else
        match parseElems n cs with
        | none => none
        | some (elems, r) => some (Json.arr elems, r)
    else if c = '\x7b' then
      if cs.head? = some '\x7d' then some (Json.obj [], cs.tail)
      else
        match parseMembers n cs with
        | none => none
        | some (ms, r) => some (Json.obj ms, r)
    else if c.isDigit then
      match parseNumber (c :: cs) with
      | none => none
      | some (v, r) => some (Json.num v, r)
    else none

/-- Parse `', '`-separated array elements up to the closing `']'`. -/
def parseElems : Nat → List Char → Option (List Json × List Char)
  | 0, _ => none
  | n + 1, cs =>
    match parseVal n cs with
    | none => none
    | some (j, r) =>
      match r with
      | ']' :: r' => some ([j], r')
      | ',' :: ' ' :: r' =>
        match parseElems n r' with
        | none => none
        | some (elems, r'') => some (j :: elems, r'')
      | _ => none

/-- Parse `', '`-separated `key: value` members up to the closing brace. -/
def parseMembers : Nat → List Char → Option (List (String × Json) × List Char)
  | 0, _ => none
  | n + 1, cs =>
    match cs with
    | '"' :: cs' =>
      match parseStringBody cs' with
      | none => none
      | some (k, r) =>
        match r with
        | ':' :: ' ' :: r' =>
          match parseVal n r' with
          | none => none
          | some (v, r'') =>
            match r'' with
            | '\x7d' :: r3 => some ([(String.mk k, v)], r3)
            | ',' :: ' ' :: r3 =>
              match parseMembers n r3 with
              | none => none
              | some (ms, r4) => some ((String.mk k, v) :: ms, r4)
            | _ => none
        | _ => none
    | _ => none

end

/-- Decode a complete canonical JSON document. -/
def jsonParse (s : String) : Option Json :=
  match parseVal (2 * s.length + 2) s.data with
  | some (j, []) => some j
  | _ => none

/-! ## Change-document builders -/

/-- The `Entity` dict of a change document (its JSON field `Type` is named
`EntityType` here because `Type` is reserved in Lean). -/
structure ChangeEntity where
  EntityType : String
  Identifier : String
deriving DecidableEq

/-- A change document: `ChangeType`, `Entity`, and the `Details` JSON string
produced by `json.dumps`. -/
structure ChangeDoc where
  ChangeType : String
  Entity : ChangeEntity
  Details : String
deriving DecidableEq

/-- `create_restrict_version_change_doc(entity_id, delivery_option_id)`. -/
def create_restrict_version_change_doc
    (entity_id : String) (delivery_option_id : String) : ChangeDoc :=
  let details := Json.obj [("DeliveryOptionIds", Json.arr [Json.str delivery_option_id])]
  { ChangeType := "RestrictDeliveryOptions"
    Entity := { EntityType := "AmiProduct@1.0", Identifier := entity_id }
    Details := jsonDumps details }

/-- One entry of the `ingress_rules` argument of
`create_add_version_change_doc` (a security-group ingress rule dict). -/
structure IngressRule where
  FromPort : Nat
  IpProtocol : String
  IpRanges : List String
  ToPort : Nat
deriving DecidableEq

/-- An ingress rule as the JSON object the builder serializes. -/
def IngressRule.toJson (r : IngressRule) : Json :=
  Json.obj [
    ("FromPort", Json.num r.FromPort),
    ("IpProtocol", Json.str r.IpProtocol),
    ("IpRanges", Json.arr (r.IpRanges.map Json.str)),
    ("ToPort", Json.num r.ToPort)]

/-- The default rule substituted by `if not ingress_rules:`
(TCP port 22 from `0.0.0.0/0`). -/
def defaultIngressRule : IngressRule :=
  { FromPort := 22, IpProtocol := "tcp", IpRanges := ["0.0.0.0/0"], ToPort := 22 }

/-- The `if not ingress_rules:` default substitution: Python treats both
`None` (the default) and an explicitly passed empty list as falsy. -/
def effectiveIngressRules : Option (List IngressRule) → List IngressRule
  | none => [defaultIngressRule]
  | some [] => [defaultIngressRule]
  | some rules => rules

/-- The `details` dict of `create_add_version_change_doc`, with the
`SecurityGroups` entry given by `securityGroups` (field order as in the
source). -/
def addVersionDetails (version_title release_notes usage_instructions
    recommended_instance_type ami_id access_role_arn ssh_user os_name
    os_version : String) (securityGroups : List Json) : Json :=
  Json.obj [
    ("Version", Json.obj [
      ("VersionTitle", Json.str version_title),
      ("ReleaseNotes", Json.str release_notes)]),
    ("DeliveryOptions", Json.arr [
      Json.obj [
        ("Details", Json.obj [
          ("AmiDeliveryOptionDetails", Json.obj [
            ("UsageInstructions", Json.str usage_instructions),
            ("RecommendedInstanceType", Json.str recommended_instance_type),
            ("AmiSource", Json.obj [
              ("AmiId", Json.str ami_id),
              ("AccessRoleArn", Json.str access_role_arn),
              ("UserName", Json.str ssh_user),
              ("OperatingSystemName", Json.str os_name),
              ("OperatingSystemVersion", Json.str os_version)]),
            ("SecurityGroups", Json.arr securityGroups)])])]])]

/-- `create_add_version_change_doc(...)`.  The Python `ssh_user` default is
`'ec2-user'` and `ingress_rules` defaults to `None`; both are passed
explicitly here. -/
def create_add_version_change_doc (entity_id version_title ami_id
    access_role_arn release_notes os_name os_version usage_instructions
    recommended_instance_type ssh_user : String)
    (ingress_rules : Option (List IngressRule)) : ChangeDoc :=
  let rules := effectiveIngressRules ingress_rules
  { ChangeType := "AddDeliveryOptions"
    Entity := { EntityType := "AmiProduct@1.0", Identifier := entity_id }
    Details := jsonDumps (addVersionDetails version_title release_notes
      usage_instructions recommended_instance_type ami_id access_role_arn
      ssh_user os_name os_version (rules.map IngressRule.toJson)) }

/-! ## `get_change_set` / `get_change_set_status`

The catalog client's `describe_change_set` response is modelled as an ordered
key/value mapping from field names to strings (only the `'Status'` field
matters to the embedded code).  `if response and 'Status' in response:` is
Python truthiness: the empty dict is falsy. -/

/-- Python's `str.lower()` restricted to the ASCII status strings the API
returns: lowercase every character. -/
def pyLower (s : String) : String :=
  String.mk (s.data.map Char.toLower)

/-- The part of the boto3 client used by `get_change_set`. -/
structure DescribeClient where
  describe_change_set : String → List (String × String)

/-- `get_change_set(client, change_set_id)`. -/
def get_change_set (client : DescribeClient) (change_set_id : String) :
    List (String × String) :=
  client.describe_change_set change_set_id

/-- `get_change_set_status(client, change_set_id)`: lowercase the `'Status'`
field if the response is truthy and has one; otherwise fall through
(returning `None`). -/
def get_change_set_status (client : DescribeClient) (change_set_id : String) :
    Option String :=
  let response := get_change_set client change_set_id
  if response ≠ [] ∧ (response.lookup "Status").isSome then
    (response.lookup "Status").map pyLower
  else
    none

/-! ## `get_image_delivery_option_id`

The `describe_entity` response's `DetailsDocument` is modelled structurally
(versions with sources and delivery options, as in the docstring example).
The two jmespath queries

  `Versions[?Sources[?Image=='{ami_id}']] | [0].Sources | [0].Id`
  `Versions[?DeliveryOptions[?SourceId=='{source_id}']] | [0].DeliveryOptions | [0].Id`

filter the version list by "the inner filtered list is non-empty" (empty
lists are falsy in jmespath), then take the **first** version of the filtered
list, project its full `Sources` (resp. `DeliveryOptions`) list and take the
`Id` of its **first** element; every missing step yields `null`.
`if not source_id:` is falsy for both `None` and the empty string. -/

structure MPSource where
  Image : String
  Id : String
deriving DecidableEq

structure MPDeliveryOption where
  Id : String
  SourceId : String
deriving DecidableEq

structure MPVersion where
  Sources : List MPSource
  DeliveryOptions : List MPDeliveryOption
deriving DecidableEq

/-- The `DetailsDocument` of a `describe_entity` response. -/
structure MPDetails where
  Versions : List MPVersion
deriving DecidableEq

/-- `get_image_delivery_option_id(client, entity_id, ami_id)`, as a function
of the fetched `DetailsDocument`. -/
def get_image_delivery_option_id (details : MPDetails) (ami_id : String) :
    Option String :=
  let source_id : Option String :=
    match details.Versions.filter
        (fun v => !(v.Sources.filter (fun s => s.Image == ami_id)).isEmpty) with
    | [] => none
    | v :: _ =>
      match v.Sources with
      | [] => none
      | s :: _ => some s.Id
  match source_id with
  | none => none
  | some sid =>
    if sid = "" then none
    else
      match details.Versions.filter
          (fun v => !(v.DeliveryOptions.filter (fun o => o.SourceId == sid)).isEmpty) with
      | [] => none
      | v :: _ =>
        match v.DeliveryOptions with
        | [] => none
        | o :: _ => some o.Id

/-- The lookup described by claim C6 (for comparison with the code): take the
first source across the versions whose `Image` equals the AMI id, then the
delivery option whose `SourceId` equals that source's `Id`. -/
def get_image_delivery_option_id_claimed (details : MPDetails) (ami_id : String) :
    Option String :=
  match (details.Versions.flatMap MPVersion.Sources).find?
      (fun s => s.Image == ami_id) with
  | none => none
  | some s =>
    ((details.Versions.flatMap MPVersion.DeliveryOptions).find?
      (fun o => o.SourceId == s.Id)).map MPDeliveryOption.Id


/-- Characters that `escapeChar` passes through unchanged and that the
string-body parser treats literally.  All identifiers, titles and AMI ids
handled by the library consist of such characters. -/
def jsonSafeChar (c : Char) : Bool :=
  !(c = '"' || c = '\\' || c = '\n' || c = '\t' || c = '\r' ||
    c = '\x08' || c = '\x0c')

/-! # Theorems

## Lemmas about the conflict-id extraction -/

theorem dropPat_eq_some {p cs r : List Char} :
    dropPat p cs = some r ↔ cs = p ++ r := by
  induction p generalizing cs with
  | nil => simp [dropPat]
  | cons a p ih =>
    cases cs with
    | nil => simp [dropPat]
    | cons c cs =>
      by_cases h : c = a
      · subst h
        simp [dropPat, ih]
      · simp [dropPat, h, Ne.symm h]

theorem matchChangeIdAt_eq_some {cs tok : List Char} :
    matchChangeIdAt cs = some tok ↔
      ∃ rest, cs = changeSetsPat ++ tok ++ rest ∧
        tok.length = 25 ∧ tok.all isWordChar = true := by
  constructor
  · intro h
    unfold matchChangeIdAt at h
    cases hd : dropPat changeSetsPat cs with
    | none => rw [hd] at h; exact absurd h (by simp)
    | some rest0 =>
      rw [hd] at h
      simp only at h
      split at h
      · rename_i hcond
        obtain ⟨hlen, hall⟩ := hcond
        have htok : tok = rest0.take 25 := by
          exact (Option.some.injEq _ _).mp h.symm
        refine ⟨rest0.drop 25, ?_, ?_, ?_⟩
        · have : cs = changeSetsPat ++ rest0 := dropPat_eq_some.mp hd
          rw [this, htok, List.append_assoc, List.take_append_drop]
        · rw [htok]; exact hlen
        · rw [htok]; exact hall
      · exact absurd h (by simp)
  · rintro ⟨rest, hcs, hlen, hall⟩
    have hd : dropPat changeSetsPat cs = some (tok ++ rest) := by
      rw [dropPat_eq_some, hcs, List.append_assoc]
    unfold matchChangeIdAt
    rw [hd]
    have htake : (tok ++ rest).take 25 = tok := by
      rw [← hlen]; exact List.take_left tok rest
    simp only [htake, hlen, hall, and_self, if_pos]

theorem searchChangeId_spec {l tok : List Char} (h : searchChangeId l = some tok) :
    ∃ pre rest, l = pre ++ changeSetsPat ++ tok ++ rest ∧
      tok.length = 25 ∧ tok.all isWordChar = true := by
  induction l with
  | nil => simp [searchChangeId] at h
  | cons c cs ih =>
    unfold searchChangeId at h
    cases hm : matchChangeIdAt (c :: cs) with
    | some tok0 =>
      rw [hm] at h
      obtain rfl : tok0 = tok := by exact (Option.some.injEq _ _).mp h
      obtain ⟨rest, hcs, hlen, hall⟩ := matchChangeIdAt_eq_some.mp hm
      exact ⟨[], rest, by simpa using hcs, hlen, hall⟩
    | none =>
      rw [hm] at h
      obtain ⟨pre, rest, hcs, hlen, hall⟩ := ih h
      exact ⟨c :: pre, rest, by simp [hcs], hlen, hall⟩

theorem searchChangeId_isSome {l : List Char} (h : hasChangeIdPattern l) :
    ∃ tok, searchChangeId l = some tok := by
  obtain ⟨pre, tok, rest, hl, hlen, hall⟩ := h
  induction pre generalizing l with
  | nil =>
    have hm : matchChangeIdAt l = some tok :=
      matchChangeIdAt_eq_some.mpr ⟨rest, by simpa using hl, hlen, hall⟩
    cases l with
    | nil =>
      simp only [List.nil_append] at hl
      exact absurd hl.symm (by simp [changeSetsPat])
    | cons c cs =>
      refine ⟨tok, ?_⟩
      unfold searchChangeId
      rw [hm]
  | cons c pre ih =>
    cases l with
    | nil => exact absurd hl (by simp)
    | cons c0 cs =>
      have hc : c0 = c ∧ cs = pre ++ changeSetsPat ++ tok ++ rest := by
        have h' := hl
        simp only [List.cons_append, List.cons.injEq] at h'
        exact h'
      obtain ⟨rfl, hcs⟩ := hc
      obtain ⟨tok1, htok1⟩ := ih hcs
      cases hm : matchChangeIdAt (c0 :: cs) with
      | some tok2 =>
        exact ⟨tok2, by unfold searchChangeId; rw [hm]⟩
      | none =>
        refine ⟨tok1, ?_⟩
        unfold searchChangeId
        rw [hm]
        exact htok1

theorem searchChangeId_none {l : List Char} (h : ¬ hasChangeIdPattern l) :
    searchChangeId l = none := by
  cases hs : searchChangeId l with
  | none => rfl
  | some tok =>
    obtain ⟨pre, rest, hl, hlen, hall⟩ := searchChangeId_spec hs
    exact absurd ⟨pre, tok, rest, hl, hlen, hall⟩ h

/-! ## Lemmas about the retry loop -/

/-- One-step unfolding of `startLoop` when `retries > 0` (the `let`-bound
`conflicting_changeset = true` conditional reduced away). -/
theorem startLoop_succ {α : Type} (client : Nat → CallOutcome α)
    (fuel : Nat) (retries max_rechecks : Int) (idx : Nat) (hr : 0 < retries) :
    startLoop client (fuel + 1) retries max_rechecks idx =
      match client idx with
      | CallOutcome.success resp => ⟨MPResult.returned resp, 1, 0⟩
      | CallOutcome.clientError err =>
        if err.code = "ResourceInUseException" then
          if max_rechecks - 1 ≤ 0 then
            match get_ongoing_change_id_from_error err.msg with
            | Except.ok ongoing_change_id =>
              ⟨MPResult.timeout ongoing_change_id, 1, 1⟩
            | Except.error e => ⟨MPResult.extractionFailure e, 1, 1⟩
          else
            let rest := startLoop client fuel retries (max_rechecks - 1) (idx + 1)
            ⟨rest.result, rest.calls + 1, rest.sleeps + 1⟩
        else ⟨MPResult.raisedUpstream err, 1, 0⟩ := by
  rw [startLoop, if_pos hr]
  cases client idx with
  | success resp => rfl
  | clientError err => rfl

theorem startLoop_conflict_forever {α : Type} (client : Nat → CallOutcome α)
    (m : String) (hc : ∀ i, client i = CallOutcome.clientError ⟨"ResourceInUseException", m⟩) :
    ∀ (fuel : Nat) (retries max_rechecks : Int) (idx : Nat),
      0 < retries → max_rechecks.toNat < fuel →
      startLoop client fuel retries max_rechecks idx =
        ⟨conflictExhaustResult α m, max max_rechecks.toNat 1, max max_rechecks.toNat 1⟩ := by
  intro fuel
  induction fuel with
  | zero => intro _ _ _ _ h; omega
  | succ n ih =>
    intro retries max_rechecks idx hr hf
    rw [startLoop_succ client n retries max_rechecks idx hr, hc idx]
    simp only [if_pos rfl, if_true]
    by_cases hm : max_rechecks - 1 ≤ 0
    · rw [if_pos hm]
      have h1 : max max_rechecks.toNat 1 = 1 := by omega
      unfold conflictExhaustResult
      cases hg : get_ongoing_change_id_from_error m with
      | ok cid => simp [hg, h1]
      | error e => simp [hg, h1]
    · rw [if_neg hm]
      have hrec := ih retries (max_rechecks - 1) (idx + 1) hr (by omega)
      rw [hrec]
      have h2 : max (max_rechecks - 1).toNat 1 + 1 = max max_rechecks.toNat 1 := by
        omega
      simp only [h2]

theorem startLoop_never_generic {α : Type} (client : Nat → CallOutcome α) :
    ∀ (fuel : Nat) (retries max_rechecks : Int) (idx : Nat),
      0 < retries → max_rechecks.toNat < fuel →
      (startLoop client fuel retries max_rechecks idx).result ≠ MPResult.genericFailure ∧
      (startLoop client fuel retries max_rechecks idx).result ≠ MPResult.outOfFuel ∧
      (startLoop client fuel retries max_rechecks idx).calls ≤ max max_rechecks.toNat 1 := by
  intro fuel
  induction fuel with
  | zero => intro _ _ _ _ h; omega
  | succ n ih =>
    intro retries max_rechecks idx hr hf
    rw [startLoop_succ client n retries max_rechecks idx hr]
    cases hcall : client idx with
    | success resp => exact ⟨by simp, by simp, by simp⟩
    | clientError err =>
      simp only []
      by_cases he : err.code = "ResourceInUseException"
      · rw [if_pos he]
        by_cases hm : max_rechecks - 1 ≤ 0
        · rw [if_pos hm]
          cases hg : get_ongoing_change_id_from_error err.msg with
          | ok cid => simp [hg]
          | error e => simp [hg]
        · rw [if_neg hm]
          have hrec := ih retries (max_rechecks - 1) (idx + 1) hr (by omega)
          refine ⟨hrec.1, hrec.2.1, ?_⟩
          have h3 := hrec.2.2
          simp only []
          omega
      · rw [if_neg he]
        exact ⟨by simp, by simp, by simp⟩

theorem startLoop_conflicts_then_success {α : Type} (client : Nat → CallOutcome α)
    (resp : α) :
    ∀ (k : Nat) (fuel : Nat) (retries max_rechecks : Int) (idx : Nat),
      0 < retries → k < fuel → (k : Int) < max_rechecks →
      (∀ i, i < k → ∃ m, client (idx + i) = CallOutcome.clientError ⟨"ResourceInUseException", m⟩) →
      client (idx + k) = CallOutcome.success resp →
      startLoop client fuel retries max_rechecks idx =
        ⟨MPResult.returned resp, k + 1, k⟩ := by
  intro k
  induction k with
  | zero =>
    intro fuel retries max_rechecks idx hr hf _ _ hs
    obtain ⟨n, rfl⟩ : ∃ n, fuel = n + 1 := ⟨fuel - 1, by omega⟩
    rw [startLoop_succ client n retries max_rechecks idx hr]
    simp only [Nat.add_zero] at hs
    rw [hs]
  | succ j ih =>
    intro fuel retries max_rechecks idx hr hf hk hconf hs
    obtain ⟨n, rfl⟩ : ∃ n, fuel = n + 1 := ⟨fuel - 1, by omega⟩
    obtain ⟨m, hm⟩ := hconf 0 (by omega)
    rw [startLoop_succ client n retries max_rechecks idx hr]
    simp only [Nat.add_zero] at hm
    rw [hm]
    simp only [if_pos rfl, if_true]
    have hnm : ¬ max_rechecks - 1 ≤ 0 := by omega
    rw [if_neg hnm]
    have hrec := ih n retries (max_rechecks - 1) (idx + 1) hr (by omega) (by omega)
      (fun i hi => by
        have h4 := hconf (i + 1) (by omega)
        rwa [show idx + (i + 1) = idx + 1 + i by omega] at h4)
      (by rwa [show idx + 1 + j = idx + (j + 1) by omega])
    rw [hrec]

/-! ## Lemmas about the JSON serializer and decoder -/

theorem string_mk_data (s : String) : String.mk s.data = s := rfl

theorem escapeChar_safe {c : Char} (h : jsonSafeChar c = true) :
    escapeChar c = [c] := by
  simp only [jsonSafeChar, Bool.not_eq_eq_eq_not, Bool.not_true, Bool.or_eq_false_iff,
    decide_eq_false_iff_not] at h
  obtain ⟨⟨⟨⟨⟨⟨h1, h2⟩, h3⟩, h4⟩, h5⟩, h6⟩, h7⟩ := h
  simp [escapeChar, h1, h2, h3, h4, h5, h6, h7]

theorem parseStringBody_roundtrip {l : List Char}
    (h : ∀ c ∈ l, jsonSafeChar c = true) (rest : List Char) :
    parseStringBody (l.flatMap escapeChar ++ '"' :: rest) = some (l, rest) := by
  induction l with
  | nil =>
    rw [List.flatMap_nil, List.nil_append, parseStringBody.eq_def]
    simp
  | cons c t ih =>
    have hc := h c (by simp)
    have ht : ∀ x ∈ t, jsonSafeChar x = true := fun x hx => h x (by simp [hx])
    have h1 : ¬ (c = '"') := by
      intro e; rw [e] at hc; simp [jsonSafeChar] at hc
    have h2 : ¬ (c = '\\') := by
      intro e; rw [e] at hc; simp [jsonSafeChar] at hc
    rw [List.flatMap_cons, escapeChar_safe hc]
    simp only [List.singleton_append, List.cons_append]
    rw [parseStringBody.eq_def]
    simp [h1, h2, ih ht]

theorem parseVal_str (s : String) (hs : s.data.all jsonSafeChar = true)
    (rest : List Char) (n : Nat) :
    parseVal (n + 1) (dumpString s ++ rest) = some (Json.str s, rest) := by
  have hshape : dumpString s ++ rest =
      '"' :: (s.data.flatMap escapeChar ++ '"' :: rest) := by
    simp [dumpString]
  rw [hshape, parseVal]
  simp [parseStringBody_roundtrip (List.all_eq_true.mp hs) rest, string_mk_data]

theorem parseVal_str_arr (s : String) (hs : s.data.all jsonSafeChar = true)
    (rest : List Char) (n : Nat) :
    parseVal (n + 3) ('[' :: (dumpString s ++ ']' :: rest)) =
      some (Json.arr [Json.str s], rest) := by
  have hshape : dumpString s ++ ']' :: rest =
      '"' :: (s.data.flatMap escapeChar ++ '"' :: ']' :: rest) := by
    simp [dumpString]
  have hval : parseVal (n + 1) (dumpString s ++ ']' :: rest) =
      some (Json.str s, ']' :: rest) := parseVal_str s hs (']' :: rest) n
  rw [hshape] at hval ⊢
  rw [parseVal]
  rw [show (n + 2 : Nat) = n + 1 + 1 from rfl, parseElems, hval]
  simp

theorem parseVal_restrict_details (d : String)
    (hd : d.data.all jsonSafeChar = true) (rest : List Char) (n : Nat) :
    parseVal (n + 5)
        (dumpJson (Json.obj [("DeliveryOptionIds", Json.arr [Json.str d])]) ++ rest) =
      some (Json.obj [("DeliveryOptionIds", Json.arr [Json.str d])], rest) := by
  have hk : ("DeliveryOptionIds" : String).data.all jsonSafeChar = true := by decide
  have hshape :
      dumpJson (Json.obj [("DeliveryOptionIds", Json.arr [Json.str d])]) ++ rest =
      '\x7b' :: '"' :: (("DeliveryOptionIds" : String).data.flatMap escapeChar ++
        '"' :: ':' :: ' ' :: '[' :: (dumpString d ++ ']' :: '\x7d' :: rest)) := by
    simp [dumpJson, dumpMembers, dumpElems, dumpString]
  rw [hshape, parseVal]
  have hbody := parseStringBody_roundtrip (List.all_eq_true.mp hk)
    (':' :: ' ' :: '[' :: (dumpString d ++ ']' :: '\x7d' :: rest))
  have hval := parseVal_str_arr d hd ('\x7d' :: rest) n
  rw [show (n + 4 : Nat) = n + 3 + 1 from rfl, parseMembers]
  simp only [hbody, hval]
  simp [string_mk_data]

/-! ## Lemmas about the jmespath lookup -/

theorem not_isEmpty_filter {α : Type} (l : List α) (q : α → Bool) :
    (!(l.filter q).isEmpty) = l.any q := by
  induction l with
  | nil => rfl
  | cons a t ih =>
    by_cases h : q a <;> simp [List.filter_cons, h, ih]

theorem head?_filter_find? {α : Type} (l : List α) (q : α → Bool) :
    (l.filter q).head? = l.find? q := by
  induction l with
  | nil => rfl
  | cons a t ih =>
    by_cases h : q a <;> simp [List.filter_cons, List.find?_cons, h, ih]

/-- `get_image_delivery_option_id` in terms of `List.find?`: first version
whose sources contain a matching image, id of its first source, then first
version with a delivery option referencing that id, id of its first delivery
option. -/
theorem get_image_delivery_option_id_eq (d : MPDetails) (ami_id : String) :
    get_image_delivery_option_id d ami_id =
      match d.Versions.find? (fun v => v.Sources.any (fun s => s.Image == ami_id)) with
      | none => none
      | some v =>
        match v.Sources.head? with
        | none => none
        | some s =>
          if s.Id = "" then none
          else
            match d.Versions.find?
                (fun w => w.DeliveryOptions.any (fun o => o.SourceId == s.Id)) with
            | none => none
            | some w => w.DeliveryOptions.head?.map MPDeliveryOption.Id := by
  unfold get_image_delivery_option_id
  simp only [not_isEmpty_filter]
  cases hf1 : d.Versions.filter (fun v => v.Sources.any (fun s => s.Image == ami_id)) with
  | nil =>
    have hd1 : d.Versions.find? (fun v => v.Sources.any (fun s => s.Image == ami_id)) = none := by
      rw [← head?_filter_find?, hf1]; rfl
    rw [hd1]
  | cons v t =>
    have hd1 : d.Versions.find? (fun v => v.Sources.any (fun s => s.Image == ami_id)) = some v := by
      rw [← head?_filter_find?, hf1]; rfl
    rw [hd1]
    simp only []
    cases hsrc : v.Sources with
    | nil => rfl
    | cons s t2 =>
      simp only [List.head?_cons]
      by_cases hid : s.Id = ""
      · rw [if_pos hid, if_pos hid]
      · rw [if_neg hid, if_neg hid]
        cases hf2 : d.Versions.filter
            (fun w => w.DeliveryOptions.any (fun o => o.SourceId == s.Id)) with
        | nil =>
          have hd2 : d.Versions.find?
              (fun w => w.DeliveryOptions.any (fun o => o.SourceId == s.Id)) = none := by
            rw [← head?_filter_find?, hf2]; rfl
          rw [hd2]
        | cons w t3 =>
          have hd2 : d.Versions.find?
              (fun w => w.DeliveryOptions.any (fun o => o.SourceId == s.Id)) = some w := by
            rw [← head?_filter_find?, hf2]; rfl
          rw [hd2]
          simp only []
          cases hdo : w.DeliveryOptions with
          | nil => rfl
          | cons o t4 => rfl

/-! ## Claim theorems -/

/-- C5: `get_ongoing_change_id_from_error` is a pure function of the message:
whenever the message contains `change sets: ` immediately followed by at
least 25 word characters it returns exactly the first 25 word characters of
that token (as the captured group of an occurrence of the pattern), and when
the message contains no such occurrence it raises `AWSMPUtilsException` with
the extraction-error message. -/
theorem c5_extraction_pure (m : String) :
    (hasChangeIdPattern m.data →
      ∃ pre tok rest, m.data = pre ++ changeSetsPat ++ tok ++ rest ∧
        tok.length = 25 ∧ tok.all isWordChar = true ∧
        get_ongoing_change_id_from_error m = Except.ok (String.mk tok)) ∧
    (¬ hasChangeIdPattern m.data →
      get_ongoing_change_id_from_error m =
        Except.error
          ("Unable to extract changeset id from aws err response: " ++ m)) := by
  constructor
  · intro hpat
    obtain ⟨tok, hs⟩ := searchChangeId_isSome hpat
    obtain ⟨pre, rest, hl, hlen, hall⟩ := searchChangeId_spec hs
    refine ⟨pre, tok, rest, hl, hlen, hall, ?_⟩
    unfold get_ongoing_change_id_from_error
    rw [hs]
  · intro hpat
    unfold get_ongoing_change_id_from_error
    rw [searchChangeId_none hpat]

/-- Witness for C5 at a concrete message containing the pattern. -/
theorem c5_extraction_pure_witness :
    ∃ pre tok rest,
      ("locked by change sets: dgoddlepi9nb3ynwrwlkr3be4" : String).data =
        pre ++ changeSetsPat ++ tok ++ rest ∧
      tok.length = 25 ∧ tok.all isWordChar = true ∧
      get_ongoing_change_id_from_error
          "locked by change sets: dgoddlepi9nb3ynwrwlkr3be4" =
        Except.ok (String.mk tok) :=
  (c5_extraction_pure "locked by change sets: dgoddlepi9nb3ynwrwlkr3be4").1
    ⟨("locked by " : String).data, ("dgoddlepi9nb3ynwrwlkr3be4" : String).data, [],
      by decide, by decide, by decide⟩

/-- C1: if every `start_change_set` call raises a `ResourceInUseException`
`ClientError` with message `m`, then once `max_rechecks` is exhausted
`start_mp_change_set` raises: a timeout error naming the extracted
25-word-character token when the message matches `change sets: (\w{25})`,
and an extraction error when it does not. -/
theorem c1_conflict_exhaustion {α : Type} (client : Nat → CallOutcome α)
    (max_rechecks : Int) (m : String)
    (hc : ∀ i, client i = CallOutcome.clientError ⟨"ResourceInUseException", m⟩) :
    (hasChangeIdPattern m.data →
      ∃ pre tok rest, m.data = pre ++ changeSetsPat ++ tok ++ rest ∧
        tok.length = 25 ∧ tok.all isWordChar = true ∧
        (start_mp_change_set client max_rechecks).result =
          MPResult.timeout (String.mk tok)) ∧
    (¬ hasChangeIdPattern m.data →
      (start_mp_change_set client max_rechecks).result =
        MPResult.extractionFailure
          ("Unable to extract changeset id from aws err response: " ++ m)) := by
  have hrun := startLoop_conflict_forever client m hc (max_rechecks.toNat + 4)
    3 max_rechecks 0 (by omega) (by omega)
  have hres : (start_mp_change_set client max_rechecks).result =
      conflictExhaustResult α m := by
    unfold start_mp_change_set
    rw [hrun]
  constructor
  · intro hpat
    obtain ⟨tok, hs⟩ := searchChangeId_isSome hpat
    obtain ⟨pre, rest, hl, hlen, hall⟩ := searchChangeId_spec hs
    refine ⟨pre, tok, rest, hl, hlen, hall, ?_⟩
    rw [hres]
    unfold conflictExhaustResult get_ongoing_change_id_from_error
    rw [hs]
  · intro hpat
    rw [hres]
    unfold conflictExhaustResult get_ongoing_change_id_from_error
    rw [searchChangeId_none hpat]

/-- Witness for C1: a persistent conflict whose message contains the pattern
(after an earlier `change sets - ` occurrence that does not match). -/
theorem c1_conflict_exhaustion_witness :
    ∃ pre tok rest,
      ("Requested change set has entities locked by change sets - entity: 123  change sets: dgoddlepi9nb3ynwrwlkr3be4" : String).data =
        pre ++ changeSetsPat ++ tok ++ rest ∧
      tok.length = 25 ∧ tok.all isWordChar = true ∧
      (start_mp_change_set
          (fun _ => CallOutcome.clientError
            ⟨"ResourceInUseException",
             "Requested change set has entities locked by change sets - entity: 123  change sets: dgoddlepi9nb3ynwrwlkr3be4"⟩ :
            Nat → CallOutcome Nat) 3).result =
        MPResult.timeout (String.mk tok) :=
  (c1_conflict_exhaustion
      (fun _ => CallOutcome.clientError
        ⟨"ResourceInUseException",
         "Requested change set has entities locked by change sets - entity: 123  change sets: dgoddlepi9nb3ynwrwlkr3be4"⟩ :
        Nat → CallOutcome Nat) 3 _ (fun i => rfl)).1
    ⟨("Requested change set has entities locked by change sets - entity: 123  " : String).data,
      ("dgoddlepi9nb3ynwrwlkr3be4" : String).data, [],
      by decide, by decide, by decide⟩

/-- C2 counterexample: with a persistent conflict and `max_rechecks = 5` the
client is invoked 5 times — more than 3 outer attempts — and the run does not
end in the generic `RetriesExhausted` error. -/
theorem c2_counterexample :
    (start_mp_change_set
        (fun _ => CallOutcome.clientError ⟨"ResourceInUseException", "resource busy"⟩ :
          Nat → CallOutcome Nat) 5).calls = 5 ∧
    ¬ (start_mp_change_set
        (fun _ => CallOutcome.clientError ⟨"ResourceInUseException", "resource busy"⟩ :
          Nat → CallOutcome Nat) 5).calls ≤ 3 ∧
    (start_mp_change_set
        (fun _ => CallOutcome.clientError ⟨"ResourceInUseException", "resource busy"⟩ :
          Nat → CallOutcome Nat) 5).result ≠ MPResult.genericFailure := by
  decide

/-- C2 amended: `retries` starts at 3 but is never decremented on any
reachable path (success returns, a non-conflict error re-raises, and the
conflict path recurses without touching it), so the generic
`'Unable to complete successfully the mp change.'` exit after the loop is
unreachable for every client, and the number of `start_change_set`
invocations is bounded by `max(max_rechecks, 1)` instead of 3. -/
theorem c2_amended {α : Type} (client : Nat → CallOutcome α) (max_rechecks : Int) :
    (start_mp_change_set client max_rechecks).result ≠ MPResult.genericFailure ∧
    (start_mp_change_set client max_rechecks).result ≠ MPResult.outOfFuel ∧
    (start_mp_change_set client max_rechecks).calls ≤ max max_rechecks.toNat 1 := by
  have h := startLoop_never_generic client (max_rechecks.toNat + 4) 3
    max_rechecks 0 (by omega) (by omega)
  unfold start_mp_change_set
  exact h

/-- C3: a `ClientError` whose code is not `ResourceInUseException` is
re-raised unchanged; `start_change_set` is invoked exactly once and
`time.sleep` is never called. -/
theorem c3_nonconflict_reraised {α : Type} (client : Nat → CallOutcome α)
    (err : ClientError) (max_rechecks : Int)
    (hcode : err.code ≠ "ResourceInUseException")
    (h0 : client 0 = CallOutcome.clientError err) :
    start_mp_change_set client max_rechecks =
      ⟨MPResult.raisedUpstream err, 1, 0⟩ := by
  have hfuel : max_rechecks.toNat + 4 = max_rechecks.toNat + 3 + 1 := by omega
  unfold start_mp_change_set
  rw [hfuel, startLoop_succ client (max_rechecks.toNat + 3) 3 max_rechecks 0
    (by omega), h0]
  simp [hcode]

/-- Witness for C3: an `AccessDeniedException` on the first call. -/
theorem c3_nonconflict_reraised_witness :
    start_mp_change_set
        (fun _ => CallOutcome.clientError ⟨"AccessDeniedException", "denied"⟩ :
          Nat → CallOutcome Nat) 10 =
      ⟨MPResult.raisedUpstream ⟨"AccessDeniedException", "denied"⟩, 1, 0⟩ :=
  c3_nonconflict_reraised _ ⟨"AccessDeniedException", "denied"⟩ 10
    (by decide) rfl

/-- C4: a conflict on the first `k` calls (with `0 < k < max_rechecks`)
followed by a success response makes `start_mp_change_set` return that
response unchanged, after invoking `start_change_set` `k + 1` times — more
than once. -/
theorem c4_conflicts_then_success {α : Type} (client : Nat → CallOutcome α)
    (resp : α) (k : Nat) (max_rechecks : Int) (hk : 0 < k)
    (hkm : (k : Int) < max_rechecks)
    (hconf : ∀ i, i < k →
      ∃ m, client i = CallOutcome.clientError ⟨"ResourceInUseException", m⟩)
    (hsucc : client k = CallOutcome.success resp) :
    start_mp_change_set client max_rechecks =
      ⟨MPResult.returned resp, k + 1, k⟩ ∧
    1 < (start_mp_change_set client max_rechecks).calls := by
  have hrun := startLoop_conflicts_then_success client resp k
    (max_rechecks.toNat + 4) 3 max_rechecks 0 (by omega) (by omega) hkm
    (fun i hi => by simpa using hconf i hi)
    (by simpa using hsucc)
  unfold start_mp_change_set
  rw [hrun]
  exact ⟨rfl, by show 1 < k + 1; omega⟩

/-- Witness for C4: two conflicts, then success, with `max_rechecks = 10`. -/
theorem c4_conflicts_then_success_witness :
    start_mp_change_set
        (fun i => if i = 2 then CallOutcome.success (42 : Nat)
          else CallOutcome.clientError ⟨"ResourceInUseException", "resource busy"⟩) 10 =
      ⟨MPResult.returned 42, 3, 2⟩ ∧
    1 < (start_mp_change_set
        (fun i => if i = 2 then CallOutcome.success (42 : Nat)
          else CallOutcome.clientError ⟨"ResourceInUseException", "resource busy"⟩) 10).calls :=
  c4_conflicts_then_success _ 42 2 10 (by omega) (by omega)
    (fun i hi => ⟨"resource busy", by
      have h2 : ¬ (i = 2) := by omega
      simp [h2]⟩)
    (by simp)

/-- C6 counterexample: in a version whose first source does not match the
AMI id but whose second does, the code returns the id of the delivery option
referencing the **first** source (`d1`), not the one cross-referencing the
first matching source (`d2`) as the claim states. -/
theorem c6_counterexample :
    get_image_delivery_option_id
        ⟨[⟨[⟨"ami-other", "s1"⟩, ⟨"ami-123", "s2"⟩],
           [⟨"d1", "s1"⟩, ⟨"d2", "s2"⟩]⟩]⟩ "ami-123" = some "d1" ∧
    get_image_delivery_option_id_claimed
        ⟨[⟨[⟨"ami-other", "s1"⟩, ⟨"ami-123", "s2"⟩],
           [⟨"d1", "s1"⟩, ⟨"d2", "s2"⟩]⟩]⟩ "ami-123" = some "d2" ∧
    get_image_delivery_option_id
        ⟨[⟨[⟨"ami-other", "s1"⟩, ⟨"ami-123", "s2"⟩],
           [⟨"d1", "s1"⟩, ⟨"d2", "s2"⟩]⟩]⟩ "ami-123" ≠
      get_image_delivery_option_id_claimed
        ⟨[⟨[⟨"ami-other", "s1"⟩, ⟨"ami-123", "s2"⟩],
           [⟨"d1", "s1"⟩, ⟨"d2", "s2"⟩]⟩]⟩ "ami-123" := by
  decide

/-- C6 amended: `get_image_delivery_option_id` returns the id of the first
delivery option of the first version having any delivery option whose
`SourceId` equals the id of the **first source** of the first version
containing any source whose `Image` equals the AMI id; it returns `None`
when no version contains a matching source (and when the first source id is
the empty string). -/
theorem c6_amended (d : MPDetails) (ami_id : String) :
    ((∀ v ∈ d.Versions, ∀ s ∈ v.Sources, s.Image ≠ ami_id) →
      get_image_delivery_option_id d ami_id = none) ∧
    (∀ v s,
      d.Versions.find? (fun v => v.Sources.any (fun s => s.Image == ami_id)) = some v →
      v.Sources.head? = some s →
      ((s.Id = "" → get_image_delivery_option_id d ami_id = none) ∧
       (s.Id ≠ "" →
         get_image_delivery_option_id d ami_id =
           (d.Versions.find?
             (fun w => w.DeliveryOptions.any (fun o => o.SourceId == s.Id))).bind
             (fun w => w.DeliveryOptions.head?.map MPDeliveryOption.Id)))) := by
  constructor
  · intro hnone
    rw [get_image_delivery_option_id_eq]
    have hfind : d.Versions.find?
        (fun v => v.Sources.any (fun s => s.Image == ami_id)) = none := by
      rw [List.find?_eq_none]
      intro v hv
      simp only [List.any_eq_true, beq_iff_eq, not_exists, not_and]
      exact fun s hs => hnone v hv s hs
    rw [hfind]
  · intro v s hfind hhead
    constructor
    · intro hid
      rw [get_image_delivery_option_id_eq, hfind]
      simp only []
      rw [hhead]
      simp [hid]
    · intro hid
      rw [get_image_delivery_option_id_eq, hfind]
      simp only []
      rw [hhead]
      simp only [if_neg hid]
      cases hf : d.Versions.find?
          (fun w => w.DeliveryOptions.any (fun o => o.SourceId == s.Id)) with
      | none => rfl
      | some w => rfl

/-- Witness for C6 (amended) at the docstring example document. -/
theorem c6_amended_witness :
    get_image_delivery_option_id
        ⟨[⟨[⟨"ami-123", "1234"⟩], [⟨"4321", "1234"⟩]⟩]⟩ "ami-123" =
      some "4321" := by
  have h := ((c6_amended ⟨[⟨[⟨"ami-123", "1234"⟩], [⟨"4321", "1234"⟩]⟩]⟩
      "ami-123").2
    ⟨[⟨"ami-123", "1234"⟩], [⟨"4321", "1234"⟩]⟩ ⟨"ami-123", "1234"⟩
    (by decide) (by decide)).2 (by decide)
  rw [h]
  decide

/-- C7: `create_restrict_version_change_doc` is pure and returns
`ChangeType = 'RestrictDeliveryOptions'`, the `AmiProduct@1.0` entity with
the given id, and a `Details` string that is the `json.dumps` serialization
of — and JSON-decodes back to — `{DeliveryOptionIds: [delivery_option_id]}`;
on the spec's example inputs it yields exactly the example values. -/
theorem c7_restrict_version_doc (entity_id delivery_option_id : String) :
    (create_restrict_version_change_doc entity_id delivery_option_id).ChangeType =
      "RestrictDeliveryOptions" ∧
    (create_restrict_version_change_doc entity_id delivery_option_id).Entity =
      ⟨"AmiProduct@1.0", entity_id⟩ ∧
    (create_restrict_version_change_doc entity_id delivery_option_id).Details =
      jsonDumps (Json.obj [("DeliveryOptionIds", Json.arr [Json.str delivery_option_id])]) ∧
    (delivery_option_id.data.all jsonSafeChar = true →
      jsonParse (create_restrict_version_change_doc entity_id delivery_option_id).Details =
        some (Json.obj [("DeliveryOptionIds", Json.arr [Json.str delivery_option_id])])) ∧
    (create_restrict_version_change_doc "123456789" "987654321").Details =
      "\x7b\"DeliveryOptionIds\": [\"987654321\"]\x7d" := by
  refine ⟨rfl, rfl, rfl, ?_, by decide⟩
  intro hsafe
  show jsonParse
      (jsonDumps (Json.obj [("DeliveryOptionIds", Json.arr [Json.str delivery_option_id])])) =
    some (Json.obj [("DeliveryOptionIds", Json.arr [Json.str delivery_option_id])])
  have hlen2 : 2 ≤ (jsonDumps (Json.obj
      [("DeliveryOptionIds", Json.arr [Json.str delivery_option_id])])).length := by
    show 2 ≤ (dumpJson (Json.obj
      [("DeliveryOptionIds", Json.arr [Json.str delivery_option_id])])).length
    rw [dumpJson]
    simp
  obtain ⟨n, hn⟩ : ∃ n, 2 * (jsonDumps (Json.obj
      [("DeliveryOptionIds", Json.arr [Json.str delivery_option_id])])).length + 2 =
      n + 5 :=
    ⟨2 * (jsonDumps (Json.obj
      [("DeliveryOptionIds", Json.arr [Json.str delivery_option_id])])).length - 3,
      by omega⟩
  unfold jsonParse
  rw [hn]
  rw [show (jsonDumps (Json.obj
      [("DeliveryOptionIds", Json.arr [Json.str delivery_option_id])])).data =
    dumpJson (Json.obj
      [("DeliveryOptionIds", Json.arr [Json.str delivery_option_id])]) ++ [] from
    by simp [jsonDumps]]
  rw [parseVal_restrict_details delivery_option_id hsafe [] n]

/-- Witness for C7 at the spec's example inputs. -/
theorem c7_restrict_version_doc_witness :
    jsonParse (create_restrict_version_change_doc "123456789" "987654321").Details =
      some (Json.obj [("DeliveryOptionIds", Json.arr [Json.str "987654321"])]) :=
  (c7_restrict_version_doc "123456789" "987654321").2.2.2.1 (by decide)

set_option maxRecDepth 10000 in
/-- C8: with no `ingress_rules` supplied the serialized `SecurityGroups`
field holds exactly the default rule
`{FromPort: 22, IpProtocol: 'tcp', IpRanges: ['0.0.0.0/0'], ToPort: 22}`;
with a non-empty list supplied it holds exactly that list.  The last
conjunct decodes a concrete default-rule document back through the JSON
parser. -/
theorem c8_default_ssh_ingress (entity_id version_title ami_id access_role_arn
    release_notes os_name os_version usage_instructions
    recommended_instance_type ssh_user : String) :
    ((create_add_version_change_doc entity_id version_title ami_id
        access_role_arn release_notes os_name os_version usage_instructions
        recommended_instance_type ssh_user none).Details =
      jsonDumps (addVersionDetails version_title release_notes
        usage_instructions recommended_instance_type ami_id access_role_arn
        ssh_user os_name os_version
        [Json.obj [("FromPort", Json.num 22), ("IpProtocol", Json.str "tcp"),
          ("IpRanges", Json.arr [Json.str "0.0.0.0/0"]),
          ("ToPort", Json.num 22)]])) ∧
    (∀ (r : IngressRule) (rs : List IngressRule),
      (create_add_version_change_doc entity_id version_title ami_id
          access_role_arn release_notes os_name os_version usage_instructions
          recommended_instance_type ssh_user (some (r :: rs))).Details =
        jsonDumps (addVersionDetails version_title release_notes
          usage_instructions recommended_instance_type ami_id access_role_arn
          ssh_user os_name os_version ((r :: rs).map IngressRule.toJson))) ∧
    jsonParse (create_add_version_change_doc "e" "t" "a" "r" "n" "o" "v"
        "u" "i" "s" none).Details =
      some (addVersionDetails "t" "n" "u" "i" "a" "r" "s" "o" "v"
        [IngressRule.toJson defaultIngressRule]) :=
  ⟨rfl, fun _ _ => rfl, rfl⟩

/-- C9: every falsy `ingress_rules` argument — `None` and the explicitly
passed empty list alike — is replaced by the default rule, so the serialized
`SecurityGroups` list is never empty. -/
theorem c9_falsy_ingress_rules (entity_id version_title ami_id access_role_arn
    release_notes os_name os_version usage_instructions
    recommended_instance_type ssh_user : String)
    (ingress_rules : Option (List IngressRule)) :
    ((create_add_version_change_doc entity_id version_title ami_id
        access_role_arn release_notes os_name os_version usage_instructions
        recommended_instance_type ssh_user ingress_rules).Details =
      jsonDumps (addVersionDetails version_title release_notes
        usage_instructions recommended_instance_type ami_id access_role_arn
        ssh_user os_name os_version
        ((effectiveIngressRules ingress_rules).map IngressRule.toJson))) ∧
    (effectiveIngressRules ingress_rules).map IngressRule.toJson ≠ [] ∧
    effectiveIngressRules (some []) = [defaultIngressRule] ∧
    effectiveIngressRules none = [defaultIngressRule] := by
  refine ⟨rfl, ?_, rfl, rfl⟩
  cases ingress_rules with
  | none => simp [effectiveIngressRules]
  | some l =>
    cases l with
    | nil => simp [effectiveIngressRules]
    | cons _ _ => simp [effectiveIngressRules]

/-- C10: `get_change_set_status` returns the lowercased `'Status'` field when
present and `None` (without raising) when the response is empty or lacks the
key. -/
theorem c10_change_set_status (client : DescribeClient) (change_set_id : String) :
    (∀ status,
      (get_change_set client change_set_id).lookup "Status" = some status →
      get_change_set_status client change_set_id = some (pyLower status)) ∧
    ((get_change_set client change_set_id).lookup "Status" = none →
      get_change_set_status client change_set_id = none) := by
  constructor
  · intro status hs
    have hne : get_change_set client change_set_id ≠ [] := by
      intro e
      rw [e] at hs
      simp [List.lookup] at hs
    show (if get_change_set client change_set_id ≠ [] ∧
        ((get_change_set client change_set_id).lookup "Status").isSome then
      ((get_change_set client change_set_id).lookup "Status").map pyLower
    else none) = some (pyLower status)
    rw [if_pos ⟨hne, by rw [hs]; rfl⟩, hs]
    rfl
  · intro hn
    show (if get_change_set client change_set_id ≠ [] ∧
        ((get_change_set client change_set_id).lookup "Status").isSome then
      ((get_change_set client change_set_id).lookup "Status").map pyLower
    else none) = none
    rw [if_neg (by simp [hn])]

/-- Witness for C10 at a response carrying `Status: SUCCEEDED`. -/
theorem c10_change_set_status_witness :
    get_change_set_status ⟨fun _ => [("Status", "SUCCEEDED")]⟩ "cs-1" =
      some "succeeded" := by
  have h := (c10_change_set_status ⟨fun _ => [("Status", "SUCCEEDED")]⟩ "cs-1").1
    "SUCCEEDED" (by decide)
  rw [h]
  decide

end AwsMpUtils
